import Mathlib

/-!
Verification of the OneCoreMxPy CSV validation engine
(`app/services/csv_service.py`) and the document analysis orchestrator
(`app/services/document_service.py`) against the repository specification.

The Python code is shallowly embedded: byte strings become `List UInt8`,
Python `dict` rows become association lists in insertion order, Python
floats become rationals (`ℚ`; every numeric literal the claims exercise is
exactly representable on both sides), and code that can raise returns an
explicit exception value.  External collaborators (the OpenAI client) are
modelled as oracle outcomes passed in as arguments: each AI call either
raises (`Except.error`) or produces a parsed JSON value, which is the
abstraction boundary the spec itself uses.
-/

namespace OneCoreMx

/-! ### Python string primitives used by `csv_service.py` -/

/-- Characters removed by Python `str.strip()` (ASCII whitespace; the full
Unicode whitespace set is irrelevant here because all inputs under test are
ASCII). -/
def isPySpace (c : Char) : Bool :=
  c = ' ' || c = '\t' || c = '\n' || c = '\r' || c = '\x0b' || c = '\x0c'

/-- Python `str.strip()` on a character list. -/
def stripChars (cs : List Char) : List Char :=
  ((cs.dropWhile isPySpace).reverse.dropWhile isPySpace).reverse

/-- Python `str.strip()`. -/
def pyStrip (s : String) : String := ⟨stripChars s.data⟩

/-- ASCII lowering of one character, modelling `str.lower()` on the ASCII
headers relevant to the numeric-column allow-list. -/
def lowerChar (c : Char) : Char :=
  if 'A' ≤ c ∧ c ≤ 'Z' then Char.ofNat (c.toNat + 32) else c

/-- Python `str.lower()` (ASCII fragment). -/
def pyLower (s : String) : String := ⟨s.data.map lowerChar⟩

/-- Python `str.replace(",", ".")`: a single-character replacement is a map. -/
def replaceCommaDot (s : String) : String :=
  ⟨s.data.map (fun c => if c = ',' then '.' else c)⟩

/-! ### Python `float(str)` (`csv_service._is_numeric`, classification
confidence conversion, pydantic lax string-to-float coercion).

The value grammar modelled: optional whitespace, optional sign, a decimal
digit string with the CPython underscore rules, optional fraction, optional
exponent, and the `inf` / `infinity` / `nan` words.  Non-finite values are
not representable in `ℚ`; they are mapped to `0`, which is sound because the
claims only ever use the parse's *success*, or its value on finite decimal
literals. -/

def digitVal (c : Char) : Option Nat :=
  if '0' ≤ c ∧ c ≤ '9' then some (c.toNat - 48) else none

/-- Consume a run of decimal digits in which a single `_` may stand between
two digits (CPython numeric-literal rule).  Returns the accumulated value,
the number of digits consumed and the rest of the input. -/
def digitRun : Nat → Nat → List Char → Nat × Nat × List Char
  | acc, cnt, [] => (acc, cnt, [])
  | acc, cnt, c :: rest =>
    match digitVal c with
    | some d => digitRun (acc * 10 + d) (cnt + 1) rest
    | none =>
      match c, rest with
      | '_', c2 :: r2 =>
        match digitVal c2 with
        | some d => digitRun (acc * 10 + d) (cnt + 1) r2
        | none => (acc, cnt, c :: rest)
      | _, _ => (acc, cnt, c :: rest)

/-- Case-insensitive match of a trailing keyword (`inf`, `infinity`, `nan`). -/
def charsLowerEq (cs : List Char) (kw : List Char) : Bool :=
  cs.map lowerChar = kw

/-- The part of `float(s)` after the optional sign has been removed. -/
def parseUnsignedFloat (cs : List Char) : Option ℚ :=
  if charsLowerEq cs "inf".data || charsLowerEq cs "infinity".data ||
      charsLowerEq cs "nan".data then
    some 0
  else
    let (ip, ic, rest1) := digitRun 0 0 cs
    match rest1 with
    | '.' :: rest2 =>
      let (fp, fc, rest3) := digitRun 0 0 rest2
      if ic + fc = 0 then none
      else
        let mant : ℚ := (ip * 10 ^ fc + fp : ℕ) / ((10 : ℚ) ^ fc)
        parseExponent mant rest3
    | _ =>
      if ic = 0 then none else parseExponent (ip : ℚ) rest1
where
  parseExponent (mant : ℚ) : List Char → Option ℚ
    | [] => some mant
    | 'e' :: rest => parseSignedExp mant rest
    | 'E' :: rest => parseSignedExp mant rest
    | _ => none
  parseSignedExp (mant : ℚ) : List Char → Option ℚ
    | '+' :: rest => parseExpDigits mant false rest
    | '-' :: rest => parseExpDigits mant true rest
    | rest => parseExpDigits mant false rest
  parseExpDigits (mant : ℚ) (neg : Bool) (rest : List Char) : Option ℚ :=
    let (ev, ec, rest') := digitRun 0 0 rest
    if ec = 0 ∨ rest' ≠ [] then none
    else some (if neg then mant / 10 ^ ev else mant * 10 ^ ev)

/-- Python `float(s)` on a string: `none` models the `ValueError`. -/
def pyParseFloat (s : String) : Option ℚ :=
  match stripChars s.data with
  | [] => none
  | '+' :: rest => parseUnsignedFloat rest
  | '-' :: rest => (parseUnsignedFloat rest).map Neg.neg
  | cs => parseUnsignedFloat cs

/-! ### Byte decoding (`file_content.decode("utf-8")` with `latin-1`
fallback).  The UTF-8 decoder is strict, as Python's is: continuation
bytes, overlong forms, surrogates and out-of-range code points are
rejected, triggering the latin-1 fallback, which never fails. -/

def isCont (b : UInt8) : Bool := 0x80 ≤ b.toNat ∧ b.toNat < 0xC0

def contVal (b : UInt8) : Nat := b.toNat - 0x80

def utf8DecodeList : List UInt8 → Option (List Char)
  | [] => some []
  | b :: rest =>
    let n := b.toNat
    if n < 0x80 then (utf8DecodeList rest).map (Char.ofNat n :: ·)
    else if n < 0xC0 then none
    else if n < 0xE0 then
      match rest with
      | b1 :: r1 =>
        if isCont b1 then
          let c := (n - 0xC0) * 0x40 + contVal b1
          if 0x80 ≤ c then (utf8DecodeList r1).map (Char.ofNat c :: ·) else none
        else none
      | [] => none
    else if n < 0xF0 then
      match rest with
      | b1 :: b2 :: r2 =>
        if isCont b1 ∧ isCont b2 then
          let c := (n - 0xE0) * 0x1000 + contVal b1 * 0x40 + contVal b2
          if 0x800 ≤ c ∧ ¬(0xD800 ≤ c ∧ c ≤ 0xDFFF) then
            (utf8DecodeList r2).map (Char.ofNat c :: ·)
          else none
        else none
      | _ => none
    else if n < 0xF8 then
      match rest with
      | b1 :: b2 :: b3 :: r3 =>
        if isCont b1 ∧ isCont b2 ∧ isCont b3 then
          let c := (n - 0xF0) * 0x40000 + contVal b1 * 0x1000 +
            contVal b2 * 0x40 + contVal b3
          if 0x10000 ≤ c ∧ c ≤ 0x10FFFF then
            (utf8DecodeList r3).map (Char.ofNat c :: ·)
          else none
        else none
      | _ => none
    else none

/-- Python `bytes.decode("latin-1")`: each byte maps to the code point of the same
value; total for arbitrary byte sequences. -/
def latin1Decode (bs : List UInt8) : String :=
  ⟨bs.map (fun b => Char.ofNat b.toNat)⟩

/-- The decode step of `validate_and_process`: UTF-8 first, latin-1 on
`UnicodeDecodeError`. -/
def decodeContent (bs : List UInt8) : String :=
  match utf8DecodeList bs with
  | some cs => ⟨cs⟩
  | none => latin1Decode bs

/-- UTF-8 encoding, used to build the concrete byte inputs of the claims
(all of them ASCII). -/
def utf8EncodeChar (c : Char) : List UInt8 :=
  let n := c.toNat
  if n < 0x80 then [UInt8.ofNat n]
  else if n < 0x800 then
    [UInt8.ofNat (0xC0 + n / 0x40), UInt8.ofNat (0x80 + n % 0x40)]
  else if n < 0x10000 then
    [UInt8.ofNat (0xE0 + n / 0x1000), UInt8.ofNat (0x80 + n / 0x40 % 0x40),
      UInt8.ofNat (0x80 + n % 0x40)]
  else
    [UInt8.ofNat (0xF0 + n / 0x40000), UInt8.ofNat (0x80 + n / 0x1000 % 0x40),
      UInt8.ofNat (0x80 + n / 0x40 % 0x40), UInt8.ofNat (0x80 + n % 0x40)]

def strBytes (s : String) : List UInt8 :=
  s.data.foldr (fun c acc => utf8EncodeChar c ++ acc) []

/-! ### The `csv` module fragment used by `csv_service.py`

`csv.DictReader(io.StringIO(content))` with the default excel dialect:
comma delimiter, double-quote quoting with `""` escapes, records separated
by `\n`, `\r\n` or `\r`, blank lines producing the empty record `[]`, and
(non-strict mode) literal handling of stray quotes.  A NUL character makes
the reader raise `csv.Error("line contains NUL")` when the record holding
it is requested; records before it are delivered normally. -/

inductive CsvMode where
  | recStart
  /-- Just consumed a record-ending `\r`; a following `\n` belongs to the
  same record separator. -/
  | afterCR
  | fieldStart
  | inField
  | inQuoted
  | afterQuote
deriving DecidableEq

/-- One pass of the csv reader.  `cur` is the current field (reversed),
`rec` the fields of the current record (reversed), `acc` the completed
records (reversed).  The boolean result reports a NUL abort. -/
def csvScan : CsvMode → List Char → List String → List (List String) →
    List Char → List (List String) × Bool
  | mode, cur, rec, acc, [] =>
    match mode with
    | .recStart => (acc.reverse, false)
    | .afterCR => (acc.reverse, false)
    | _ => (((⟨cur.reverse⟩ :: rec).reverse :: acc).reverse, false)
  | mode, cur, rec, acc, c :: rest =>
    if c = '\x00' then (acc.reverse, true)
    else
      match mode with
      | .recStart =>
        if c = '\n' then csvScan .recStart [] [] ([] :: acc) rest
        else if c = '\r' then csvScan .afterCR [] [] ([] :: acc) rest
        else if c = ',' then csvScan .fieldStart [] [""] acc rest
        else if c = '"' then csvScan .inQuoted [] rec acc rest
        else csvScan .inField [c] rec acc rest
      | .afterCR =>
        if c = '\n' then csvScan .recStart [] [] acc rest
        else if c = '\r' then csvScan .afterCR [] [] ([] :: acc) rest
        else if c = ',' then csvScan .fieldStart [] [""] acc rest
        else if c = '"' then csvScan .inQuoted [] rec acc rest
        else csvScan .inField [c] rec acc rest
      | .fieldStart =>
        if c = '\n' then csvScan .recStart [] [] ((("" :: rec).reverse) :: acc) rest
        else if c = '\r' then csvScan .afterCR [] [] ((("" :: rec).reverse) :: acc) rest
        else if c = ',' then csvScan .fieldStart [] ("" :: rec) acc rest
        else if c = '"' then csvScan .inQuoted [] rec acc rest
        else csvScan .inField [c] rec acc rest
      | .inField =>
        if c = '\n' then
          csvScan .recStart [] [] (((⟨cur.reverse⟩ :: rec).reverse) :: acc) rest
        else if c = '\r' then
          csvScan .afterCR [] [] (((⟨cur.reverse⟩ :: rec).reverse) :: acc) rest
        else if c = ',' then csvScan .fieldStart [] (⟨cur.reverse⟩ :: rec) acc rest
        else csvScan .inField (c :: cur) rec acc rest
      | .inQuoted =>
        if c = '"' then csvScan .afterQuote cur rec acc rest
        else csvScan .inQuoted (c :: cur) rec acc rest
      | .afterQuote =>
        if c = '"' then csvScan .inQuoted ('"' :: cur) rec acc rest
        else if c = '\n' then
          csvScan .recStart [] [] (((⟨cur.reverse⟩ :: rec).reverse) :: acc) rest
        else if c = '\r' then
          csvScan .afterCR [] [] (((⟨cur.reverse⟩ :: rec).reverse) :: acc) rest
        else if c = ',' then csvScan .fieldStart [] (⟨cur.reverse⟩ :: rec) acc rest
        else csvScan .inField (c :: cur) rec acc rest

/-- All records of the stream, plus whether a NUL aborted it. -/
def csvParse (content : String) : List (List String) × Bool :=
  csvScan .recStart [] [] [] content.data

/-! ### `csv.DictReader` row construction

A cell value in a `DictReader` row is a string, `None` (the `restval` fill
for short records), or a list of strings (stored under the `None` rest-key
for long records). -/

inductive CellVal where
  | str (s : String)
  | pyNone
  | strList (l : List String)
deriving DecidableEq

/-- A parsed row: a Python dict in insertion order, keyed by header name or
by the `None` rest-key. -/
abbrev Row := List (Option String × CellVal)

/-- Python dict assignment `d[k] = v`: overwrite in place, else append. -/
def dictUpdate : Row → Option String → CellVal → Row
  | [], k, v => [(k, v)]
  | (k0, v0) :: rest, k, v =>
    if k0 = k then (k0, v) :: rest else (k0, v0) :: dictUpdate rest k v

/-- The `DictReader.__next__` dict construction: `dict(zip(fieldnames, row))`,
extras under the `None` rest-key, missing fields filled with `None`. -/
def mkDict (fieldnames : List String) (record : List String) : Row :=
  let base := (fieldnames.zip record).foldl
    (fun d kv => dictUpdate d (some kv.1) (.str kv.2)) []
  if fieldnames.length < record.length then
    dictUpdate base none (.strList (record.drop fieldnames.length))
  else if record.length < fieldnames.length then
    (fieldnames.drop record.length).foldl
      (fun d k => dictUpdate d (some k) .pyNone) base
  else base

/-- The rows the `DictReader` iterator yields after the header: blank
records (`[]`) are skipped without consuming a row number. -/
def dictRows (fieldnames : List String) (records : List (List String)) :
    List Row :=
  (records.filter (fun r => ¬r.isEmpty)).map (mkDict fieldnames)

/-! ### `ValidationResult` and the validation loop -/

structure ValidationResult where
  validation_type : String
  row_number : Option Nat := none
  column_name : Option String := none
  message : String
  severity : String := "warning"
deriving DecidableEq

/-- Exceptions that can escape the row-processing loop and reach the
`except` clauses of `validate_and_process`. -/
inductive PyExc where
  /-- A `TypeError` from `sorted()` comparing the `None` rest-key with a
  string key inside `_compute_row_hash`. -/
  | typeErr (msg : String)
  /-- An `AttributeError` from `col_name.lower()` when `col_name` is `None`. -/
  | attrErr (msg : String)
  /-- A `csv.Error` raised by the reader (NUL byte in the input). -/
  | csvErr (msg : String)
deriving DecidableEq

def pyExcMsg : PyExc → String
  | .typeErr m => m
  | .attrErr m => m
  | .csvErr m => m

/-- The validation entry produced by the matching `except` clause. -/
def excEntry : PyExc → ValidationResult
  | .csvErr m =>
    { validation_type := "parse_error"
      message := "Error al parsear CSV: " ++ m
      severity := "error" }
  | .typeErr m =>
    { validation_type := "unknown_error"
      message := "Error desconocido: " ++ m
      severity := "error" }
  | .attrErr m =>
    { validation_type := "unknown_error"
      message := "Error desconocido: " ++ m
      severity := "error" }

def typeErrSortMsg : String :=
  "\x27<\x27 not supported between instances of \x27NoneType\x27 and \x27str\x27"

def attrErrLowerMsg : String :=
  "\x27NoneType\x27 object has no attribute \x27lower\x27"

def csvNulMsg : String := "line contains NUL"

/-! ### `_compute_row_hash`

The source computes `md5("|".join(f"{k}:{v}" for k, v in sorted(row.items())))`.
The md5 digest of equal strings is equal and the digest function is fixed,
so the joined string itself serves as the fingerprint in the model; every
(in)equality of fingerprints the claims exercise is decided at the string
level before the hash is applied.  `sorted(row.items())` compares the
`(key, value)` tuples; when the dict holds the `None` rest-key next to
string keys (which are always present, the header being non-empty), the
comparison raises `TypeError`. -/

/-- Python `str(v)` of a cell value.  The list `repr` is only reachable for
the rest-key, whose row already fails hashing, but is kept total. -/
def pyStrCell : CellVal → String
  | .str s => s
  | .pyNone => "None"
  | .strList l =>
    "[" ++ String.intercalate ", " (l.map (fun s => "\x27" ++ s ++ "\x27")) ++ "]"

/-- Code-point lexicographic comparison of character lists: the order
Python uses on `str`. -/
def charsLeB : List Char → List Char → Bool
  | [], _ => true
  | _ :: _, [] => false
  | a :: as, b :: bs =>
    if a < b then true else if b < a then false else charsLeB as bs

def strLeB (a b : String) : Bool := charsLeB a.data b.data

/-- The order `sorted(row.items())` arranges items by: Python compares the
`(key, value)` tuples, and since dict keys are unique the key alone decides
every comparison, so the model orders by key. -/
def pairLeB (a b : String × CellVal) : Bool := strLeB a.1 b.1

def pairLe (a b : String × CellVal) : Prop := pairLeB a b = true

instance : DecidableRel pairLe := fun a b =>
  inferInstanceAs (Decidable (pairLeB a b = true))

/-- The joined fingerprint string of a row whose keys are all strings. -/
def rowHashStr (row : Row) : String :=
  String.intercalate "|"
    (((row.map (fun kv => (kv.1.getD "", kv.2))).insertionSort pairLe).map
      (fun kv => kv.1 ++ ":" ++ pyStrCell kv.2))

/-- Model of `_compute_row_hash`: raises `TypeError` when the row carries the `None`
rest-key (mixed-type key comparison), else yields the fingerprint. -/
def computeRowHash (row : Row) : Except PyExc String :=
  if row.any (fun kv => kv.1.isNone) then .error (.typeErr typeErrSortMsg)
  else .ok (rowHashStr row)

/-! ### The per-cell checks of the validation loop -/

/-- The set `self.numeric_columns`. -/
def numericColumns : List String :=
  ["precio", "cantidad", "monto", "total", "price", "quantity", "amount"]

/-- The empty test `value is None or str(value).strip() == ""`. -/
def cellIsEmpty : CellVal → Bool
  | .pyNone => true
  | .str s => pyStrip s = ""
  | .strList l => pyStrip (pyStrCell (.strList l)) = ""

/-- Model of `_is_numeric(value)`: `float(str(value).replace(",", "."))` succeeds. -/
def isNumericCell (v : CellVal) : Bool :=
  (pyParseFloat (replaceCommaDot (pyStrCell v))).isSome

def emptyValEntry (n : Nat) (k : Option String) : ValidationResult :=
  { validation_type := "empty_value"
    row_number := some n
    column_name := k
    message := "Valor vacío en columna \x27" ++
      (match k with | some s => s | none => "None") ++ "\x27"
    severity := "warning" }

def invalidTypeEntry (n : Nat) (k : String) (v : CellVal) : ValidationResult :=
  { validation_type := "invalid_type"
    row_number := some n
    column_name := some k
    message := "Tipo incorrecto (\x27" ++ pyStrCell v ++
      "\x27) en columna \x27" ++ k ++ "\x27 - se esperaba número"
    severity := "warning" }

def dupEntry (n first : Nat) : ValidationResult :=
  { validation_type := "duplicate_row"
    row_number := some n
    message := "Fila duplicada (igual a fila " ++ toString first ++ ")"
    severity := "warning" }

def structureErrEntry : ValidationResult :=
  { validation_type := "structure_error"
    message := "El archivo CSV no tiene encabezados"
    severity := "error" }

def emptyFileEntry : ValidationResult :=
  { validation_type := "empty_file"
    message := "El archivo CSV no contiene datos"
    severity := "error" }

/-- The body of the inner `for col_name, value in row.items()` loop for one
cell: an emitted warning and/or an escaping exception. -/
def cellCheck (n : Nat) (k : Option String) (v : CellVal) :
    List ValidationResult × Option PyExc :=
  if cellIsEmpty v then ([emptyValEntry n k], none)
  else
    match k with
    | none => ([], some (.attrErr attrErrLowerMsg))
    | some s =>
      if numericColumns.contains (pyLower s) then
        if isNumericCell v then ([], none)
        else ([invalidTypeEntry n s v], none)
      else ([], none)

/-- The inner loop over all cells of a row; stops at the first exception,
keeping the warnings already emitted. -/
def columnChecks (n : Nat) : Row → List ValidationResult × Option PyExc
  | [] => ([], none)
  | (k, v) :: rest =>
    match cellCheck n k v with
    | (ws, some e) => (ws, some e)
    | (ws, none) =>
      let (ws2, e2) := columnChecks n rest
      (ws ++ ws2, e2)

/-! ### The row loop of `validate_and_process` -/

structure LoopSt where
  rows : List Row := []
  vals : List ValidationResult := []
  seen : List (String × Nat) := []
  exc : Option PyExc := none
deriving DecidableEq

/-- The `seen_hashes` lookup. -/
def firstOcc (seen : List (String × Nat)) (h : String) : Option Nat :=
  (seen.find? (fun p => p.1 = h)).map (·.2)

/-- One iteration of `for row_num, row in enumerate(reader, start=2)`. -/
def stepRow (n : Nat) (row : Row) (st : LoopSt) : LoopSt :=
  if st.exc.isSome then st
  else
    let rows := st.rows ++ [row]
    match computeRowHash row with
    | .error e => { rows := rows, vals := st.vals, seen := st.seen, exc := some e }
    | .ok h =>
      let vs :=
        match firstOcc st.seen h with
        | some m => (st.vals ++ [dupEntry n m], st.seen)
        | none => (st.vals, st.seen ++ [(h, n)])
      let cw := columnChecks n row
      { rows := rows, vals := vs.1 ++ cw.1, seen := vs.2, exc := cw.2 }

def runRows (n : Nat) (rs : List Row) (st : LoopSt) : LoopSt :=
  match rs with
  | [] => st
  | r :: rest => runRows (n + 1) rest (stepRow n r st)

/-- Model of `CSVService.validate_and_process` after byte decoding. -/
def validateAndProcessStr (content : String) :
    List Row × List ValidationResult :=
  match csvParse content with
  | ([], aborted) =>
    if aborted then ([], [excEntry (.csvErr csvNulMsg)])
    else ([], [structureErrEntry])
  | (hdr :: rest, aborted) =>
    if hdr.isEmpty then ([], [structureErrEntry])
    else
      let st := runRows 2 (dictRows hdr rest) {}
      match st.exc with
      | some e => (st.rows, st.vals ++ [excEntry e])
      | none =>
        if aborted then (st.rows, st.vals ++ [excEntry (.csvErr csvNulMsg)])
        else if st.rows.isEmpty then (st.rows, st.vals ++ [emptyFileEntry])
        else (st.rows, st.vals)

/-- Model of `CSVService.validate_and_process` (the `filename` argument is unused by
the source body and omitted). -/
def validate_and_process (fileContent : List UInt8) :
    List Row × List ValidationResult :=
  validateAndProcessStr (decodeContent fileContent)

/-! ## Document analysis orchestrator (`document_service.py`)

Each OpenAI chat call, together with the fence stripping and
`json.loads` of its completion text, is abstracted as an oracle outcome
`Except Unit Json`: `.error` for any exception up to and including JSON
decoding (network failure, malformed JSON), `.ok j` for a successfully
parsed JSON value `j`.  JSON numbers are rationals; objects model Python
dicts produced by `json.loads`, whose keys are unique. -/

inductive Json where
  | null
  | bool (b : Bool)
  | num (q : ℚ)
  | str (s : String)
  | arr (l : List Json)
  | obj (fields : List (String × Json))

/-- Python `d.get(k)` on a parsed JSON object. -/
def jLookup (fields : List (String × Json)) (k : String) : Option Json :=
  (fields.find? (fun p => p.1 = k)).map (·.2)

/-- Python `float(x)` on a JSON value: numbers pass through, booleans are
ints, numeric strings parse, everything else raises
(`TypeError`/`ValueError`, modelled as `none`). -/
def pyFloatOfJson : Json → Option ℚ
  | .num q => some q
  | .bool b => some (if b then 1 else 0)
  | .str s => pyParseFloat s
  | _ => none

/-! ### Pydantic schemas (`app/schemas/schemas.py`) -/

inductive DocumentTypeEnum where
  | factura
  | informacion
  | pendiente
deriving DecidableEq

/-- The conversion `DocumentTypeEnum(x)`: `none` models the `ValueError` for a value that
is not one of the enum's values. -/
def docTypeOfJson : Json → Option DocumentTypeEnum
  | .str "factura" => some .factura
  | .str "informacion" => some .informacion
  | .str "pendiente" => some .pendiente
  | _ => none

structure InvoiceProduct where
  quantity : Option ℚ := none
  name : Option String := none
  unit_price : Option ℚ := none
  total : Option ℚ := none
deriving DecidableEq

structure InvoiceDataBase where
  client_name : Option String := none
  client_address : Option String := none
  provider_name : Option String := none
  provider_address : Option String := none
  invoice_number : Option String := none
  invoice_date : Option String := none
  invoice_total : Option ℚ := none
  currency : String := "MXN"
  products : List InvoiceProduct := []
deriving DecidableEq

structure InfoDataBase where
  description : Option String := none
  summary : Option String := none
  sentiment : Option String := none
  sentiment_score : Option ℚ := none
  key_topics : List String := []
deriving DecidableEq

structure DocumentAnalysisResult where
  document_type : DocumentTypeEnum
  confidence : ℚ
  invoice_data : Option InvoiceDataBase := none
  info_data : Option InfoDataBase := none
  raw_text : String
deriving DecidableEq

/-- Pydantic validation of an `Optional[float]` field (lax mode): `None`
passes, numbers pass, numeric strings coerce, anything else raises
`ValidationError` (modelled as `none`). -/
def pydanticOptFloat : Json → Option (Option ℚ)
  | .null => some none
  | .num q => some (some q)
  | .str s => (pyParseFloat s).map some
  | _ => none

/-- Pydantic validation of an `Optional[str]` field: pydantic v2 does not
coerce numbers to strings. -/
def pydanticOptStr : Json → Option (Option String)
  | .null => some none
  | .str s => some (some s)
  | _ => none

/-- Pydantic validation of a plain `str` field (`currency`). -/
def pydanticStr : Json → Option String
  | .str s => some s
  | _ => none

/-- Pydantic validation of a `List[str]` field (`key_topics`). -/
def pydanticStrList : Json → Option (List String)
  | .arr l => l.mapM (fun j => match j with | .str s => some s | _ => none)
  | _ => none

/-! ### `_classify_document` -/

/-- The body of `_classify_document` after the AI call: parse
`document_type` (default `"informacion"` when the key is absent) and
`confidence` (default `0.5`); any exception — a non-dict response, an
invalid enum value, a non-numeric confidence — is caught and yields the
`(informacion, 0.0)` fallback. -/
def classifyDocument (resp : Except Unit Json) : DocumentTypeEnum × ℚ :=
  match resp with
  | .error _ => (.informacion, 0)
  | .ok j =>
    match j with
    | .obj fields =>
      match docTypeOfJson ((jLookup fields "document_type").getD (.str "informacion")) with
      | none => (.informacion, 0)
      | some dt =>
        match pyFloatOfJson ((jLookup fields "confidence").getD (.num (1 / 2))) with
        | none => (.informacion, 0)
        | some c => (dt, c)
    | _ => (.informacion, 0)

/-! ### `_extract_invoice_data` -/

/-- Python `for p in result.get("products", [])`: absent means `[]`; a JSON array
iterates its elements; iterating a non-empty string or dict yields elements
without a `.get` attribute (`AttributeError`), any other value is not
iterable (`TypeError`); the empty string and empty dict iterate to nothing. -/
def pyIterProducts : Option Json → Option (List Json)
  | none => some []
  | some (.arr l) => some l
  | some (.str s) => if s = "" then some [] else none
  | some (.obj fs) => if fs.isEmpty then some [] else none
  | some _ => none

/-- The construction `InvoiceProduct(quantity=p.get("quantity"), ...)`: `p` must be a dict
(else `.get` raises) and each field must validate. -/
def validateProduct : Json → Option InvoiceProduct
  | .obj pf => do
    let quantity ← pydanticOptFloat ((jLookup pf "quantity").getD .null)
    let name ← pydanticOptStr ((jLookup pf "name").getD .null)
    let unit_price ← pydanticOptFloat ((jLookup pf "unit_price").getD .null)
    let total ← pydanticOptFloat ((jLookup pf "total").getD .null)
    some { quantity := quantity, name := name, unit_price := unit_price,
           total := total }
  | _ => none

/-- The construction of `InvoiceDataBase` from the parsed response object;
`none` models any exception (`AttributeError` or pydantic
`ValidationError`), which the caller's `except` turns into an absent
result. -/
def validateInvoice (fields : List (String × Json)) : Option InvoiceDataBase := do
  let prodJsons ← pyIterProducts (jLookup fields "products")
  let products ← prodJsons.mapM validateProduct
  let client_name ← pydanticOptStr ((jLookup fields "client_name").getD .null)
  let client_address ← pydanticOptStr ((jLookup fields "client_address").getD .null)
  let provider_name ← pydanticOptStr ((jLookup fields "provider_name").getD .null)
  let provider_address ← pydanticOptStr ((jLookup fields "provider_address").getD .null)
  let invoice_number ← pydanticOptStr ((jLookup fields "invoice_number").getD .null)
  let invoice_date ← pydanticOptStr ((jLookup fields "invoice_date").getD .null)
  let invoice_total ← pydanticOptFloat ((jLookup fields "invoice_total").getD .null)
  let currency ← pydanticStr ((jLookup fields "currency").getD (.str "MXN"))
  some { client_name := client_name, client_address := client_address,
         provider_name := provider_name, provider_address := provider_address,
         invoice_number := invoice_number, invoice_date := invoice_date,
         invoice_total := invoice_total, currency := currency,
         products := products }

/-- Model of `_extract_invoice_data` after the AI call: any exception (including a
failed call, a non-dict response, or a validation error) yields
`(None, raw_text)`; the returned extraction text is the unchanged
`raw_text` argument, as in the source. -/
def extractInvoiceData (resp : Except Unit Json) (rawText : String) :
    Option InvoiceDataBase × String :=
  match resp with
  | .error _ => (none, rawText)
  | .ok (.obj fields) => (validateInvoice fields, rawText)
  | .ok _ => (none, rawText)

/-! ### `_extract_info_data` -/

def validateInfo (fields : List (String × Json)) : Option InfoDataBase := do
  let description ← pydanticOptStr ((jLookup fields "description").getD .null)
  let summary ← pydanticOptStr ((jLookup fields "summary").getD .null)
  let sentiment ← pydanticOptStr ((jLookup fields "sentiment").getD .null)
  let sentiment_score ← pydanticOptFloat ((jLookup fields "sentiment_score").getD .null)
  let key_topics ← pydanticStrList ((jLookup fields "key_topics").getD (.arr []))
  some { description := description, summary := summary,
         sentiment := sentiment, sentiment_score := sentiment_score,
         key_topics := key_topics }

def extractInfoData (resp : Except Unit Json) (rawText : String) :
    Option InfoDataBase × String :=
  match resp with
  | .error _ => (none, rawText)
  | .ok (.obj fields) => (validateInfo fields, rawText)
  | .ok _ => (none, rawText)

/-! ### `analyze_document` -/

/-- The outcomes of the (up to two) AI calls one `analyze_document`
invocation can make. -/
structure AIOutcomes where
  classify : Except Unit Json
  extractInvoice : Except Unit Json
  extractInfo : Except Unit Json

/-- Python `or` on strings: `extraction_text or raw_text`. -/
def pyOrStr (a b : String) : String := if a = "" then b else a

/-- Model of `DocumentService.analyze_document`.  `aiAvailable` is
`_is_ai_available()`; `pdfText` is the text the PDF-extraction collaborator
returns (empty on its internal failure).  The `filename`/`s3_key`/`user_id`
arguments and the database block (source lines 281–338) are omitted: the
block only writes to the database, catches its own exceptions, and cannot
affect the returned `DocumentAnalysisResult`. -/
def analyzeDocument (aiAvailable : Bool) (contentType : String)
    (pdfText : String) (o : AIOutcomes) : DocumentAnalysisResult :=
  if ¬aiAvailable then
    { document_type := .pendiente
      confidence := 0
      raw_text := "AI service not configured. Please set OPENAI_API_KEY."
      invoice_data := none
      info_data := none }
  else
    let rawText := if contentType = "application/pdf" then pdfText else ""
    let cls := classifyDocument o.classify
    if cls.1 = .factura then
      let ext := extractInvoiceData o.extractInvoice rawText
      { document_type := cls.1
        confidence := cls.2
        invoice_data := ext.1
        info_data := none
        raw_text := pyOrStr ext.2 rawText }
    else
      let ext := extractInfoData o.extractInfo rawText
      { document_type := cls.1
        confidence := cls.2
        invoice_data := none
        info_data := ext.1
        raw_text := pyOrStr ext.2 rawText }

/-! ### Proof-support definitions

These are not translations of source code: they are the specification
vocabulary the correctness theorems about the validation loop are stated
with. -/

/-- Strict key order on row items: used to show a sorted item list with
distinct keys is unique among its permutations. -/
def pairLtKey (a b : String × CellVal) : Prop := pairLe a b ∧ a.1 ≠ b.1

/-- The forms of validation entries the row loop itself can emit (all
warnings); the error-severity entries are appended only outside the loop. -/
def isLoopWarning (x : ValidationResult) : Prop :=
  (∃ a b, x = dupEntry a b) ∨ (∃ a k, x = emptyValEntry a k) ∨
    (∃ a s v, x = invalidTypeEntry a s v)

/-- Specification of the loop's duplicate detection: the
`(row_number, first_occurrence)` pairs it reports, given the starting row
number and the already-seen fingerprints. -/
def dupPairs : Nat → List (String × Nat) → List Row → List (Nat × Nat)
  | _, _, [] => []
  | n, seen, r :: rs =>
    match firstOcc seen (rowHashStr r) with
    | some m => (n, m) :: dupPairs (n + 1) seen rs
    | none => dupPairs (n + 1) (seen ++ [(rowHashStr r, n)]) rs

/-! ## Theorems -/

/-- Claim C1, counterexample.  With the AI configured, a successful
classification as `factura` (confidence 0.9) and an extraction call that
raises, `analyze_document` returns `document_type = factura` with *both*
`invoice_data` and `info_data` absent — refuting "both fields are absent
only when `document_type = pendiente`" and "whenever `document_type` is
factura or informacion, exactly one of the two data fields is populated". -/
theorem analyze_factura_extraction_failure_both_fields_absent :
    (analyzeDocument true "application/pdf" "some invoice text"
        { classify := .ok (.obj
            [("document_type", .str "factura"), ("confidence", .num (9 / 10))]),
          extractInvoice := .error (), extractInfo := .error () }) =
      { document_type := .factura, confidence := 9 / 10, invoice_data := none,
        info_data := none, raw_text := "some invoice text" } ∧
    DocumentTypeEnum.factura ≠ DocumentTypeEnum.pendiente :=
  ⟨rfl, by decide⟩

/-- Claim C1, amended: every `analyze_document` result populates at most
one of `invoice_data` and `info_data`, and when the AI is unavailable the
result is the `pendiente` default with both fields absent; however, both
fields may also be absent when `document_type` is factura or informacion
(extraction failure), so "both absent" does not imply `pendiente`. -/
theorem analyze_at_most_one_data_field :
    (∀ (avail : Bool) (ct pdf : String) (o : AIOutcomes),
      (analyzeDocument avail ct pdf o).invoice_data = none ∨
        (analyzeDocument avail ct pdf o).info_data = none) ∧
    (∀ (ct pdf : String) (o : AIOutcomes),
      analyzeDocument false ct pdf o =
        { document_type := .pendiente, confidence := 0, invoice_data := none,
          info_data := none,
          raw_text := "AI service not configured. Please set OPENAI_API_KEY." }) := by
  constructor
  · intro avail ct pdf o
    cases avail with
    | false => exact Or.inl rfl
    | true =>
      by_cases hc : (classifyDocument o.classify).1 = DocumentTypeEnum.factura
      · exact Or.inr (by simp [analyzeDocument, hc])
      · exact Or.inl (by simp [analyzeDocument, hc])
  · intro ct pdf o
    rfl

/-- Claim C2, counterexample.  An extraction response in which
`invoice_total` is the non-numeric string `"abc"` does not yield invoice
data with that field nulled: pydantic validation raises, the `except`
clause discards the entire extraction and `invoice_data` is absent, losing
the `client_name` that the same response carried (second conjunct shows the
same response without the bad field extracts successfully). -/
theorem extract_invoice_nonnumeric_string_discards_extraction :
    extractInvoiceData
        (.ok (.obj [("client_name", .str "ACME"), ("invoice_total", .str "abc")]))
        "t" = (none, "t") ∧
    extractInvoiceData (.ok (.obj [("client_name", .str "ACME")])) "t" =
      (some { client_name := some "ACME" }, "t") :=
  ⟨rfl, rfl⟩

/-- Claim C2, amended: when the AI returns a schema-numeric field
(`invoice_total`, `sentiment_score`) as a non-numeric string, the
pydantic validation failure is caught and the *entire* extraction is
discarded — the invoice/info data is absent as a whole, rather than that
one field being treated as null with the rest kept.  The call still does
not raise. -/
theorem extract_nonnumeric_string_yields_no_data :
    (∀ (fields : List (String × Json)) (rawText s : String),
      jLookup fields "invoice_total" = some (.str s) → pyParseFloat s = none →
      extractInvoiceData (.ok (.obj fields)) rawText = (none, rawText)) ∧
    (∀ (fields : List (String × Json)) (rawText s : String),
      jLookup fields "sentiment_score" = some (.str s) → pyParseFloat s = none →
      extractInfoData (.ok (.obj fields)) rawText = (none, rawText)) := by
  constructor
  · intro fields rawText s hl hs
    show (validateInvoice fields, rawText) = (none, rawText)
    suffices h : validateInvoice fields = none by rw [h]
    unfold validateInvoice
    simp only [Option.bind_eq_bind, Option.bind_eq_none]
    intro p1 h1 p2 h2 p3 h3 p4 h4 p5 h5 p6 h6 p7 h7 p8 h8 p9 h9
    rw [hl] at h9
    simp only [Option.getD_some, pydanticOptFloat, hs, Option.map_none'] at h9
    exact Option.noConfusion h9
  · intro fields rawText s hl hs
    show (validateInfo fields, rawText) = (none, rawText)
    suffices h : validateInfo fields = none by rw [h]
    unfold validateInfo
    simp only [Option.bind_eq_bind, Option.bind_eq_none]
    intro p1 h1 p2 h2 p3 h3 p4 h4
    rw [hl] at h4
    simp only [Option.getD_some, pydanticOptFloat, hs, Option.map_none'] at h4
    exact Option.noConfusion h4

/-- Witness for `extract_nonnumeric_string_yields_no_data` at a concrete
response. -/
theorem extract_nonnumeric_string_yields_no_data_witness :
    jLookup [("client_name", Json.str "ACME"), ("invoice_total", Json.str "abc")]
        "invoice_total" = some (.str "abc") ∧
    pyParseFloat "abc" = none ∧
    extractInvoiceData
        (.ok (.obj [("client_name", .str "ACME"), ("invoice_total", .str "abc")]))
        "raw" = (none, "raw") :=
  ⟨rfl, rfl,
    extract_nonnumeric_string_yields_no_data.1
      [("client_name", Json.str "ACME"), ("invoice_total", Json.str "abc")]
      "raw" "abc" rfl rfl⟩

/-- Claim C7, counterexample.  A classification response whose
`confidence` field is `1.5` flows through unclamped: the returned
`DocumentAnalysisResult.confidence` is `1.5 ∉ [0, 1]`. -/
theorem analyze_confidence_can_exceed_one :
    (analyzeDocument true "application/pdf" ""
        { classify := .ok (.obj
            [("document_type", .str "factura"), ("confidence", .num (3 / 2))]),
          extractInvoice := .error (), extractInfo := .error () }).confidence
      = 3 / 2 ∧
    ¬((analyzeDocument true "application/pdf" ""
        { classify := .ok (.obj
            [("document_type", .str "factura"), ("confidence", .num (3 / 2))]),
          extractInvoice := .error (), extractInfo := .error () }).confidence ≤ 1) := by
  refine ⟨rfl, ?_⟩
  show ¬((3 : ℚ) / 2 ≤ 1)
  norm_num

/-- Claim C7, amended: the returned confidence is never clamped — it is
exactly the value the classification produced: `float` of the response's
`confidence` field when present (whatever its magnitude or sign), `0.5`
when the field is missing, and `0.0` when the AI is unavailable or the
classification call fails.  It therefore lies in `[0, 1]` only when that
source value does. -/
theorem analyze_confidence_unclamped :
    (∀ (ct pdf : String) (ei ef : Except Unit Json)
        (fields : List (String × Json)) (dt : DocumentTypeEnum) (q : ℚ),
      docTypeOfJson ((jLookup fields "document_type").getD (.str "informacion")) =
          some dt →
      jLookup fields "confidence" = some (.num q) →
      (analyzeDocument true ct pdf
          { classify := .ok (.obj fields), extractInvoice := ei,
            extractInfo := ef }).confidence = q) ∧
    (∀ (ct pdf : String) (o : AIOutcomes),
      (analyzeDocument false ct pdf o).confidence = 0) ∧
    classifyDocument (.error ()) = (.informacion, 0) := by
  refine ⟨?_, fun _ _ _ => rfl, rfl⟩
  intro ct pdf ei ef fields dt q hdt hc
  have hcls : classifyDocument (.ok (.obj fields)) = (dt, q) := by
    simp only [classifyDocument, hdt, hc, Option.getD_some, pyFloatOfJson]
  unfold analyzeDocument
  simp only [Bool.not_true, if_neg (by decide : ¬(¬true = true))]
  rw [hcls]
  cases dt <;> simp

/-- Witness for `analyze_confidence_unclamped` at a concrete
out-of-range confidence. -/
theorem analyze_confidence_unclamped_witness :
    docTypeOfJson ((jLookup
        [("document_type", Json.str "factura"), ("confidence", Json.num (3 / 2))]
        "document_type").getD (.str "informacion")) = some .factura ∧
    jLookup [("document_type", Json.str "factura"), ("confidence", Json.num (3 / 2))]
        "confidence" = some (.num (3 / 2)) ∧
    (analyzeDocument true "x" ""
        { classify := .ok (.obj
            [("document_type", .str "factura"), ("confidence", .num (3 / 2))]),
          extractInvoice := .error (), extractInfo := .error () }).confidence
      = 3 / 2 :=
  ⟨rfl, rfl,
    analyze_confidence_unclamped.1 "x" "" (.error ()) (.error ())
      [("document_type", Json.str "factura"), ("confidence", Json.num (3 / 2))]
      .factura (3 / 2) rfl rfl⟩

/-- Claim C8: when classification succeeds with factura or informacion and
the subsequent extraction call raises, `analyze_document` returns the
classified type and confidence unchanged with the corresponding data field
absent, and never reverts to `pendiente`. -/
theorem extraction_failure_keeps_classification :
    ∀ (ct pdf : String) (cr : Except Unit Json),
      (classifyDocument cr).1 = .factura ∨ (classifyDocument cr).1 = .informacion →
      (analyzeDocument true ct pdf
          { classify := cr, extractInvoice := .error (),
            extractInfo := .error () }).document_type = (classifyDocument cr).1 ∧
      (analyzeDocument true ct pdf
          { classify := cr, extractInvoice := .error (),
            extractInfo := .error () }).confidence = (classifyDocument cr).2 ∧
      (analyzeDocument true ct pdf
          { classify := cr, extractInvoice := .error (),
            extractInfo := .error () }).invoice_data = none ∧
      (analyzeDocument true ct pdf
          { classify := cr, extractInvoice := .error (),
            extractInfo := .error () }).info_data = none ∧
      (analyzeDocument true ct pdf
          { classify := cr, extractInvoice := .error (),
            extractInfo := .error () }).document_type ≠ .pendiente := by
  intro ct pdf cr hdt
  rcases hcls : classifyDocument cr with ⟨dt, c⟩
  have key : analyzeDocument true ct pdf
      { classify := cr, extractInvoice := .error (), extractInfo := .error () } =
      { document_type := dt, confidence := c, invoice_data := none,
        info_data := none,
        raw_text := if ct = "application/pdf" then pdf else "" } := by
    cases dt <;>
      simp [analyzeDocument, hcls, extractInvoiceData, extractInfoData, pyOrStr,
        ite_self]
  rw [hcls] at hdt
  refine ⟨?_, ?_, ?_, ?_, ?_⟩ <;> rw [key]
  rcases hdt with h | h
  · have hd : dt = .factura := h
    subst hd; simp
  · have hd : dt = .informacion := h
    subst hd; simp

/-- Witness for `extraction_failure_keeps_classification` at a concrete
classification response. -/
theorem extraction_failure_keeps_classification_witness :
    ((classifyDocument (.ok (.obj
        [("document_type", .str "factura"), ("confidence", .num (9 / 10))]))).1 =
          .factura ∨
      (classifyDocument (.ok (.obj
        [("document_type", .str "factura"), ("confidence", .num (9 / 10))]))).1 =
          .informacion) ∧
    (analyzeDocument true "application/pdf" "txt"
        { classify := .ok (.obj
            [("document_type", .str "factura"), ("confidence", .num (9 / 10))]),
          extractInvoice := .error (), extractInfo := .error () }).document_type =
      .factura :=
  ⟨Or.inl rfl,
    (extraction_failure_keeps_classification "application/pdf" "txt"
      (.ok (.obj [("document_type", .str "factura"), ("confidence", .num (9 / 10))]))
      (Or.inl rfl)).1⟩

/-- Claim C10: when the classification response parses as a JSON object,
the defaults differ from the exception fallback — a missing
`document_type` yields `informacion`, a missing `confidence` yields `0.5`
(not `0.0`); the `(informacion, 0.0)` fallback belongs to the exception
path. -/
theorem classify_defaults :
    (∀ fields : List (String × Json),
      jLookup fields "document_type" = none →
      (classifyDocument (.ok (.obj fields))).1 = .informacion) ∧
    (∀ (fields : List (String × Json)) (dt : DocumentTypeEnum),
      docTypeOfJson ((jLookup fields "document_type").getD (.str "informacion")) =
          some dt →
      jLookup fields "confidence" = none →
      classifyDocument (.ok (.obj fields)) = (dt, 1 / 2)) ∧
    classifyDocument (.error ()) = (.informacion, 0) := by
  refine ⟨?_, ?_, rfl⟩
  · intro fields h
    simp only [classifyDocument, h, Option.getD_none, docTypeOfJson]
    cases pyFloatOfJson ((jLookup fields "confidence").getD (.num (1 / 2))) <;> rfl
  · intro fields dt hdt hc
    simp only [classifyDocument, hdt, hc, Option.getD_none, pyFloatOfJson]

/-- Witness for `classify_defaults` at the empty JSON object. -/
theorem classify_defaults_witness :
    jLookup ([] : List (String × Json)) "document_type" = none ∧
    (classifyDocument (.ok (.obj []))).1 = .informacion ∧
    classifyDocument (.ok (.obj [])) = (.informacion, 1 / 2) :=
  ⟨rfl, classify_defaults.1 [] rfl, classify_defaults.2.1 [] .informacion rfl rfl⟩

/-- Claim C6: on the three-row vector with a repeated row,
`validate_and_process` returns exactly 3 rows (the duplicate is kept) and
exactly one validation: a `duplicate_row` warning at `row_number = 4` whose
message references first occurrence row 2. -/
theorem duplicate_rows_concrete_vector :
    validate_and_process
        (strBytes "name,precio,cantidad\nA,100.50,10\nB,200.00,5\nA,100.50,10\n") =
      ([[(some "name", .str "A"), (some "precio", .str "100.50"),
          (some "cantidad", .str "10")],
        [(some "name", .str "B"), (some "precio", .str "200.00"),
          (some "cantidad", .str "5")],
        [(some "name", .str "A"), (some "precio", .str "100.50"),
          (some "cantidad", .str "10")]],
       [dupEntry 4 2]) ∧
    dupEntry 4 2 =
      { validation_type := "duplicate_row", row_number := some 4,
        message := "Fila duplicada (igual a fila 2)", severity := "warning" } := by
  constructor <;> decide

/-- Claim C3, counterexample.  On the exact bytes of
`"name,precio\nA,,\n"` the data row has three fields against a two-column
header, so `DictReader` stores the extra field under the `None` rest-key;
`_compute_row_hash` then sorts mixed `None`/`str` keys and raises
`TypeError`, which the top-level `except` converts to a single
`unknown_error`.  No `empty_value` warning is emitted at all, contradicting
"yields exactly one `empty_value` warning for column `precio`". -/
theorem empty_precio_with_extra_field_yields_unknown_error :
    validate_and_process (strBytes "name,precio\nA,,\n") =
      ([[(some "name", .str "A"), (some "precio", .str ""),
          (none, .strList [""])]],
       [excEntry (.typeErr typeErrSortMsg)]) ∧
    ((validate_and_process (strBytes "name,precio\nA,,\n")).2.filter
        (fun v => v.validation_type = "empty_value")).length = 0 := by
  constructor <;> decide

/-- Claim C3, amended: an absent or whitespace-only cell receives exactly
one `empty_value` warning naming the row and column, and the numeric type
check is skipped for that cell — provided its row reaches the column loop
(i.e. the row does not carry extra fields, whose `None` rest-key makes the
earlier row-hashing raise).  On `"name,precio\nA,\n"` — the given vector
with the extra field removed — the result is exactly one `empty_value`
warning for `precio` and no `invalid_type` warning. -/
theorem empty_cell_only_empty_value_warning :
    (∀ (n : Nat) (k : String) (v : CellVal),
      cellIsEmpty v = true →
      cellCheck n (some k) v = ([emptyValEntry n (some k)], none)) ∧
    validate_and_process (strBytes "name,precio\nA,\n") =
      ([[(some "name", .str "A"), (some "precio", .str "")]],
       [emptyValEntry 2 (some "precio")]) := by
  constructor
  · intro n k v h
    unfold cellCheck
    rw [if_pos h]
  · decide

/-- Witness for `empty_cell_only_empty_value_warning` at the empty-string
cell of the amended vector. -/
theorem empty_cell_only_empty_value_warning_witness :
    cellIsEmpty (.str "") = true ∧
    cellCheck 2 (some "precio") (.str "") =
      ([emptyValEntry 2 (some "precio")], none) :=
  ⟨by decide, empty_cell_only_empty_value_warning.1 2 "precio" (.str "") (by decide)⟩

/-- Claim C5, counterexample.  The fingerprint join
`"|".join(f"{k}:{v}" ...)` is not injective: the distinct rows
`{"a": "1|b:2", "b": "3"}` and `{"a": "1", "b": "2|b:3"}` both serialise to
`"a:1|b:2|b:3"`, so `validate_and_process` flags row 3 as a duplicate of
row 2 although the two rows differ in every column's value. -/
theorem duplicate_flag_on_distinct_rows :
    validate_and_process (strBytes "a,b\n1|b:2,3\n1,2|b:3\n") =
      ([[(some "a", .str "1|b:2"), (some "b", .str "3")],
        [(some "a", .str "1"), (some "b", .str "2|b:3")]],
       [dupEntry 3 2]) ∧
    [(some "a", CellVal.str "1|b:2"), (some "b", CellVal.str "3")] ≠
      [(some "a", CellVal.str "1"), (some "b", CellVal.str "2|b:3")] ∧
    rowHashStr [(some "a", .str "1|b:2"), (some "b", .str "3")] =
      rowHashStr [(some "a", .str "1"), (some "b", .str "2|b:3")] := by
  refine ⟨by decide, by decide, by decide⟩

/-! ### Order facts about the fingerprint sort -/

theorem charsLeB_total : ∀ x y : List Char, charsLeB x y = true ∨ charsLeB y x = true := by
  intro x
  induction x with
  | nil => intro y; exact Or.inl rfl
  | cons a as ih =>
    intro y
    cases y with
    | nil => exact Or.inr rfl
    | cons b bs =>
      by_cases hab : a < b
      · left; simp [charsLeB, hab]
      · by_cases hba : b < a
        · right; simp [charsLeB, hba]
        · rcases ih bs with h | h
          · left; simp [charsLeB, hab, hba, h]
          · right; simp [charsLeB, hab, hba, h]

theorem charsLeB_trans :
    ∀ x y z : List Char, charsLeB x y = true → charsLeB y z = true →
      charsLeB x z = true := by
  intro x
  induction x with
  | nil => intro y z _ _; rfl
  | cons a as ih =>
    intro y z hxy hyz
    cases y with
    | nil => simp [charsLeB] at hxy
    | cons b bs =>
      cases z with
      | nil => simp [charsLeB] at hyz
      | cons c cs =>
        simp only [charsLeB] at hxy hyz ⊢
        by_cases hab : a < b
        · by_cases hbc : b < c
          · rw [if_pos (lt_trans hab hbc)]
          · by_cases hcb : c < b
            · rw [if_neg hbc, if_pos hcb] at hyz
              exact absurd hyz (by simp)
            · have hbc' : b = c := le_antisymm (not_lt.mp hcb) (not_lt.mp hbc)
              subst hbc'
              rw [if_pos hab]
        · by_cases hba : b < a
          · rw [if_neg hab, if_pos hba] at hxy
            exact absurd hxy (by simp)
          · have hab' : a = b := le_antisymm (not_lt.mp hba) (not_lt.mp hab)
            subst hab'
            rw [if_neg hba] at hxy
            simp only [lt_irrefl, if_neg (lt_irrefl a), if_false] at hxy
            by_cases hac : a < c
            · rw [if_pos hac]
            · by_cases hca : c < a
              · rw [if_neg hac, if_pos hca] at hyz
                exact absurd hyz (by simp)
              · rw [if_neg hac, if_neg hca] at hyz ⊢
                exact ih bs cs hxy hyz

theorem charsLeB_antisymm :
    ∀ x y : List Char, charsLeB x y = true → charsLeB y x = true → x = y := by
  intro x
  induction x with
  | nil =>
    intro y _ hyx
    cases y with
    | nil => rfl
    | cons b bs => simp [charsLeB] at hyx
  | cons a as ih =>
    intro y hxy hyx
    cases y with
    | nil => simp [charsLeB] at hxy
    | cons b bs =>
      simp only [charsLeB] at hxy hyx
      by_cases hab : a < b
      · rw [if_neg (lt_asymm hab), if_pos hab] at hyx
        exact absurd hyx (by simp)
      · by_cases hba : b < a
        · rw [if_neg hab, if_pos hba] at hxy
          exact absurd hxy (by simp)
        · have hab' : a = b := le_antisymm (not_lt.mp hba) (not_lt.mp hab)
          subst hab'
          rw [if_neg hab, if_neg hba] at hxy hyx
          rw [ih bs hxy hyx]

theorem strLeB_total (a b : String) : strLeB a b = true ∨ strLeB b a = true :=
  charsLeB_total a.data b.data

theorem strLeB_trans {a b c : String} (h1 : strLeB a b = true)
    (h2 : strLeB b c = true) : strLeB a c = true :=
  charsLeB_trans a.data b.data c.data h1 h2

theorem strLeB_antisymm {a b : String} (h1 : strLeB a b = true)
    (h2 : strLeB b a = true) : a = b := by
  cases a with
  | mk da =>
    cases b with
    | mk db => exact congrArg String.mk (charsLeB_antisymm da db h1 h2)

/-- Claim C9: the row fingerprint — the md5 input string built from the
sorted column/value items — is invariant under any permutation of a row
mapping's items (row mappings are Python dicts, so their keys are
distinct).  Equal fingerprint strings have equal md5 digests, so the
duplicate-detection fingerprints coincide. -/
theorem row_fingerprint_perm_invariant :
    ∀ (r1 r2 : Row), r1.Perm r2 → (r1.map Prod.fst).Nodup →
      computeRowHash r1 = computeRowHash r2 := by
  intro r1 r2 hp hnd
  by_cases hnone : (r1.any fun kv => kv.1.isNone) = true
  · have h2 : (r2.any fun kv => kv.1.isNone) = true := by
      rw [List.any_eq_true] at hnone ⊢
      obtain ⟨x, hx, hpx⟩ := hnone
      exact ⟨x, hp.mem_iff.mp hx, hpx⟩
    unfold computeRowHash
    rw [if_pos hnone, if_pos h2]
  · have h2 : ¬(r2.any fun kv => kv.1.isNone) = true := by
      intro hc
      apply hnone
      rw [List.any_eq_true] at hc ⊢
      obtain ⟨x, hx, hpx⟩ := hc
      exact ⟨x, hp.mem_iff.mpr hx, hpx⟩
    unfold computeRowHash
    rw [if_neg hnone, if_neg h2]
    suffices hs : (r1.map fun kv => (kv.1.getD "", kv.2)).insertionSort pairLe =
        (r2.map fun kv => (kv.1.getD "", kv.2)).insertionSort pairLe by
      unfold rowHashStr
      rw [hs]
    haveI instTot : IsTotal (String × CellVal) pairLe :=
      ⟨fun a b => strLeB_total a.1 b.1⟩
    haveI instTrans : IsTrans (String × CellVal) pairLe :=
      ⟨fun _ _ _ h1 h2 => strLeB_trans h1 h2⟩
    haveI instAnti : IsAntisymm (String × CellVal) pairLtKey :=
      ⟨fun _ _ h1 h2 => absurd (strLeB_antisymm h1.1 h2.1) h1.2⟩
    have hsome1 : ∀ x ∈ r1.map Prod.fst, x.isSome = true := by
      intro x hx
      rcases List.mem_map.mp hx with ⟨kv, hkv, heq⟩
      cases hk : kv.1 with
      | some s => rw [← heq, hk]; rfl
      | none =>
        exact absurd (List.any_eq_true.mpr ⟨kv, hkv, by rw [hk]; rfl⟩) hnone
    have hkeys : ∀ r : Row, (r.map fun kv => (kv.1.getD "", kv.2)).map Prod.fst =
        (r.map Prod.fst).map (fun o => o.getD "") := by
      intro r
      simp [List.map_map, Function.comp]
    have hndm : ((r1.map fun kv => (kv.1.getD "", kv.2)).map Prod.fst).Nodup := by
      rw [hkeys]
      refine List.Nodup.map_on ?_ hnd
      intro x hx y hy hxy
      rcases Option.isSome_iff_exists.mp (hsome1 x hx) with ⟨a, ha⟩
      rcases Option.isSome_iff_exists.mp (hsome1 y hy) with ⟨b, hb⟩
      subst ha; subst hb
      simpa using hxy
    have strict : ∀ (r : Row),
        ((r.map fun kv => (kv.1.getD "", kv.2)).map Prod.fst).Nodup →
        List.Sorted pairLtKey
          ((r.map fun kv => (kv.1.getD "", kv.2)).insertionSort pairLe) := by
      intro r hnodup
      have hsorted : List.Sorted pairLe
          ((r.map fun kv => (kv.1.getD "", kv.2)).insertionSort pairLe) :=
        List.sorted_insertionSort pairLe _
      have hnodup' : (((r.map fun kv => (kv.1.getD "", kv.2)).insertionSort
          pairLe).map Prod.fst).Nodup :=
        (List.Perm.nodup_iff
          ((List.perm_insertionSort pairLe _).map Prod.fst)).mpr hnodup
      have hne : List.Pairwise (fun a b : String × CellVal => a.1 ≠ b.1)
          ((r.map fun kv => (kv.1.getD "", kv.2)).insertionSort pairLe) :=
        List.pairwise_map.mp hnodup'
      exact hsorted.and hne
    have hndm2 : ((r2.map fun kv => (kv.1.getD "", kv.2)).map Prod.fst).Nodup :=
      (List.Perm.nodup_iff
        ((hp.map (fun kv => (kv.1.getD "", kv.2))).map Prod.fst)).mp hndm
    have hperm : ((r1.map fun kv => (kv.1.getD "", kv.2)).insertionSort
        pairLe).Perm ((r2.map fun kv => (kv.1.getD "", kv.2)).insertionSort pairLe) :=
      ((List.perm_insertionSort pairLe _).trans
        (hp.map fun kv => (kv.1.getD "", kv.2))).trans
        (List.perm_insertionSort pairLe _).symm
    exact List.eq_of_perm_of_sorted hperm (strict r1 hndm) (strict r2 hndm2)

/-- Witness for `row_fingerprint_perm_invariant`: the two orderings of the
row `a=1, b=2` have equal fingerprints. -/
theorem row_fingerprint_perm_invariant_witness :
    ([(some "a", CellVal.str "1"), (some "b", CellVal.str "2")] : Row).Perm
        [(some "b", CellVal.str "2"), (some "a", CellVal.str "1")] ∧
    (([(some "a", CellVal.str "1"), (some "b", CellVal.str "2")] : Row).map
        Prod.fst).Nodup ∧
    computeRowHash [(some "a", .str "1"), (some "b", .str "2")] =
      computeRowHash [(some "b", .str "2"), (some "a", .str "1")] :=
  ⟨by decide, by decide,
    row_fingerprint_perm_invariant _ _ (by decide) (by decide)⟩

/-! ### The row loop emits only warnings -/

theorem cellCheck_mem :
    ∀ (n : Nat) (k : Option String) (v : CellVal) (x : ValidationResult),
      x ∈ (cellCheck n k v).1 →
      x = emptyValEntry n k ∨ ∃ s, k = some s ∧ x = invalidTypeEntry n s v := by
  intro n k v x hx
  unfold cellCheck at hx
  split at hx
  · exact Or.inl (List.mem_singleton.mp hx)
  · split at hx
    · exact absurd hx (List.not_mem_nil x)
    · rename_i s
      split at hx
      · split at hx
        · exact absurd hx (List.not_mem_nil x)
        · exact Or.inr ⟨s, rfl, List.mem_singleton.mp hx⟩
      · exact absurd hx (List.not_mem_nil x)

theorem columnChecks_mem :
    ∀ (n : Nat) (row : Row) (x : ValidationResult),
      x ∈ (columnChecks n row).1 →
      (∃ k, x = emptyValEntry n k) ∨ ∃ s v, x = invalidTypeEntry n s v := by
  intro n row
  induction row with
  | nil =>
    intro x hx
    exact absurd hx (List.not_mem_nil x)
  | cons kv rest ih =>
    obtain ⟨k, v⟩ := kv
    intro x hx
    rw [columnChecks] at hx
    rcases hcc : cellCheck n k v with ⟨ws, oe⟩
    rw [hcc] at hx
    have hcell : ∀ y ∈ ws, y = emptyValEntry n k ∨
        ∃ s, k = some s ∧ y = invalidTypeEntry n s v := by
      intro y hy
      exact cellCheck_mem n k v y (by rw [hcc]; exact hy)
    cases oe with
    | some e =>
      rcases hcell x hx with rfl | ⟨s, _, rfl⟩
      · exact Or.inl ⟨k, rfl⟩
      · exact Or.inr ⟨s, v, rfl⟩
    | none =>
      rcases List.mem_append.mp hx with h | h
      · rcases hcell x h with rfl | ⟨s, _, rfl⟩
        · exact Or.inl ⟨k, rfl⟩
        · exact Or.inr ⟨s, v, rfl⟩
      · exact ih x h

theorem isLoopWarning_severity :
    ∀ x : ValidationResult, isLoopWarning x → x.severity = "warning" := by
  intro x h
  rcases h with ⟨a, b, rfl⟩ | ⟨a, k, rfl⟩ | ⟨a, s, v, rfl⟩ <;> rfl

theorem isLoopWarning_not_dup_free :
    ∀ x : ValidationResult, isLoopWarning x →
      x.validation_type = "duplicate_row" ∨ x.validation_type = "empty_value" ∨
        x.validation_type = "invalid_type" := by
  intro x h
  rcases h with ⟨a, b, rfl⟩ | ⟨a, k, rfl⟩ | ⟨a, s, v, rfl⟩
  · exact Or.inl rfl
  · exact Or.inr (Or.inl rfl)
  · exact Or.inr (Or.inr rfl)

theorem stepRow_vals :
    ∀ (n : Nat) (r : Row) (st : LoopSt), ∃ Δ,
      (stepRow n r st).vals = st.vals ++ Δ ∧ ∀ x ∈ Δ, isLoopWarning x := by
  intro n r st
  unfold stepRow
  by_cases hexc : st.exc.isSome = true
  · rw [if_pos hexc]
    exact ⟨[], by simp, by simp⟩
  · rw [if_neg hexc]
    cases hh : computeRowHash r with
    | error e => exact ⟨[], by simp, by simp⟩
    | ok h =>
      have hcw : ∀ x ∈ (columnChecks n r).1, isLoopWarning x := by
        intro x hx
        rcases columnChecks_mem n r x hx with ⟨k, rfl⟩ | ⟨s, v, rfl⟩
        · exact Or.inr (Or.inl ⟨n, k, rfl⟩)
        · exact Or.inr (Or.inr ⟨n, s, v, rfl⟩)
      cases hfo : firstOcc st.seen h with
      | none =>
        refine ⟨(columnChecks n r).1, by simp [hfo], hcw⟩
      | some m =>
        refine ⟨dupEntry n m :: (columnChecks n r).1, ?_, ?_⟩
        · simp [hfo]
        · intro x hx
          rcases List.mem_cons.mp hx with rfl | hx
          · exact Or.inl ⟨n, m, rfl⟩
          · exact hcw x hx

theorem runRows_vals :
    ∀ (rs : List Row) (n : Nat) (st : LoopSt), ∃ Δ,
      (runRows n rs st).vals = st.vals ++ Δ ∧ ∀ x ∈ Δ, isLoopWarning x := by
  intro rs
  induction rs with
  | nil => intro n st; exact ⟨[], by simp [runRows], by simp⟩
  | cons r rest ih =>
    intro n st
    rcases stepRow_vals n r st with ⟨d1, h1, hw1⟩
    rcases ih (n + 1) (stepRow n r st) with ⟨d2, h2, hw2⟩
    refine ⟨d1 ++ d2, ?_, ?_⟩
    · rw [runRows, h2, h1, List.append_assoc]
    · intro x hx
      rcases List.mem_append.mp hx with h | h
      · exact hw1 x h
      · exact hw2 x h

/-! ### Loop-state bookkeeping -/

theorem runRows_exc_some :
    ∀ (rs : List Row) (n : Nat) (st : LoopSt), st.exc.isSome = true →
      runRows n rs st = st := by
  intro rs
  induction rs with
  | nil => intro n st _; rfl
  | cons r rest ih =>
    intro n st h
    rw [runRows]
    have hst : stepRow n r st = st := by
      unfold stepRow
      rw [if_pos h]
    rw [hst]
    exact ih (n + 1) st h

theorem runRows_exc_none :
    ∀ (rs : List Row) (n : Nat) (st : LoopSt),
      (runRows n rs st).exc = none → st.exc = none := by
  intro rs n st h
  cases hst : st.exc with
  | none => rfl
  | some e =>
    rw [runRows_exc_some rs n st (by rw [hst]; rfl), hst] at h
    exact absurd h (by simp)

theorem stepRow_rows :
    ∀ (n : Nat) (r : Row) (st : LoopSt), st.exc = none →
      (stepRow n r st).rows = st.rows ++ [r] := by
  intro n r st h
  unfold stepRow
  rw [if_neg (by rw [h]; simp)]
  cases hh : computeRowHash r with
  | error e => rfl
  | ok hsh =>
    cases hfo : firstOcc st.seen hsh <;> rfl

theorem runRows_rows :
    ∀ (rs : List Row) (n : Nat) (st : LoopSt), (runRows n rs st).exc = none →
      st.exc = none → (runRows n rs st).rows = st.rows ++ rs := by
  intro rs
  induction rs with
  | nil => intro n st _ _; simp [runRows]
  | cons r rest ih =>
    intro n st hfin hst
    rw [runRows] at hfin ⊢
    have hstep : (stepRow n r st).exc = none := runRows_exc_none rest (n + 1) _ hfin
    rw [ih (n + 1) _ hfin hstep, stepRow_rows n r st hst, List.append_assoc]
    rfl

/-! ### Shape of `validate_and_process` output -/

theorem vpStr_vals_shape :
    ∀ content : String, ∃ ws t : List ValidationResult,
      (validateAndProcessStr content).2 = ws ++ t ∧
      (∀ x ∈ ws, isLoopWarning x) ∧
      (t = [] ∨ ∃ er, t = [er] ∧ er.severity = "error" ∧
        (er.validation_type = "structure_error" ∨
         er.validation_type = "empty_file" ∨
         er.validation_type = "parse_error" ∨
         er.validation_type = "unknown_error")) := by
  intro content
  unfold validateAndProcessStr
  rcases hp : csvParse content with ⟨recs, ab⟩
  cases recs with
  | nil =>
    cases ab with
    | true =>
      exact ⟨[], [excEntry (.csvErr csvNulMsg)], by simp, by simp,
        Or.inr ⟨_, rfl, rfl, Or.inr (Or.inr (Or.inl rfl))⟩⟩
    | false =>
      exact ⟨[], [structureErrEntry], by simp, by simp,
        Or.inr ⟨_, rfl, rfl, Or.inl rfl⟩⟩
  | cons hdr rest =>
    dsimp only
    by_cases hh : hdr.isEmpty = true
    · rw [if_pos hh]
      exact ⟨[], [structureErrEntry], by simp, by simp,
        Or.inr ⟨_, rfl, rfl, Or.inl rfl⟩⟩
    · rw [if_neg hh]
      rcases runRows_vals (dictRows hdr rest) 2 {} with ⟨d, hd, hwd⟩
      have hd' : (runRows 2 (dictRows hdr rest) {}).vals = d := by
        rw [hd]; rfl
      cases hex : (runRows 2 (dictRows hdr rest) {}).exc with
      | some e =>
        refine ⟨d, [excEntry e], by rw [hd'], hwd,
          Or.inr ⟨excEntry e, rfl, ?_, ?_⟩⟩
        · cases e <;> rfl
        · cases e
          · exact Or.inr (Or.inr (Or.inr rfl))
          · exact Or.inr (Or.inr (Or.inr rfl))
          · exact Or.inr (Or.inr (Or.inl rfl))
      | none =>
        dsimp only
        cases ab with
        | true =>
          exact ⟨d, [excEntry (.csvErr csvNulMsg)],
            by rw [if_pos rfl, hd'], hwd,
            Or.inr ⟨_, rfl, rfl, Or.inr (Or.inr (Or.inl rfl))⟩⟩
        | false =>
          rw [if_neg (by decide : ¬(false = true))]
          by_cases hr : (runRows 2 (dictRows hdr rest) {}).rows.isEmpty = true
          · rw [if_pos hr]
            exact ⟨d, [emptyFileEntry], by rw [hd'], hwd,
              Or.inr ⟨_, rfl, rfl, Or.inr (Or.inl rfl)⟩⟩
          · rw [if_neg hr]
            exact ⟨d, [], by rw [hd']; simp, hwd, Or.inl rfl⟩

/-- Claim C4: `validate_and_process` is total on arbitrary byte input —
every validation it returns is a warning or an error, at most one
error-severity entry appears and only as the final entry with one of the
four file-level types, and when the row loop raises, the exception is
converted into exactly one `parse_error`/`unknown_error` entry whose
message embeds the exception text, with the rows parsed before the failure
still returned. -/
theorem validate_and_process_total_single_error :
    ∀ bs : List UInt8,
      (∀ v ∈ (validate_and_process bs).2,
        v.severity = "warning" ∨ v.severity = "error") ∧
      ((validate_and_process bs).2.filter
          (fun v => v.severity = "error")).length ≤ 1 ∧
      (∀ v ∈ (validate_and_process bs).2, v.severity = "error" →
        (validate_and_process bs).2.getLast? = some v ∧
        (v.validation_type = "structure_error" ∨
         v.validation_type = "empty_file" ∨
         v.validation_type = "parse_error" ∨
         v.validation_type = "unknown_error")) ∧
      (∀ (hdr : List String) (rest : List (List String)) (e : PyExc),
        csvParse (decodeContent bs) = (hdr :: rest, false) →
        hdr.isEmpty = false →
        (runRows 2 (dictRows hdr rest) {}).exc = some e →
        validate_and_process bs =
          ((runRows 2 (dictRows hdr rest) {}).rows,
           (runRows 2 (dictRows hdr rest) {}).vals ++ [excEntry e]) ∧
        (excEntry e).severity = "error" ∧
        ((excEntry e).message = "Error al parsear CSV: " ++ pyExcMsg e ∨
         (excEntry e).message = "Error desconocido: " ++ pyExcMsg e)) := by
  intro bs
  rcases vpStr_vals_shape (decodeContent bs) with ⟨ws, t, hv, hws, ht⟩
  have hv2 : (validate_and_process bs).2 = ws ++ t := hv
  have hsev : ∀ x ∈ ws, x.severity = "warning" :=
    fun x hx => isLoopWarning_severity x (hws x hx)
  refine ⟨?_, ?_, ?_, ?_⟩
  · intro v hv'
    rw [hv2] at hv'
    rcases List.mem_append.mp hv' with h | h
    · exact Or.inl (hsev v h)
    · rcases ht with rfl | ⟨er, rfl, hsev', _⟩
      · exact absurd h (List.not_mem_nil v)
      · rw [List.mem_singleton.mp h]
        exact Or.inr hsev'
  · rw [hv2, List.filter_append]
    have hwf : ws.filter (fun v => v.severity = "error") = [] := by
      rw [List.filter_eq_nil_iff]
      intro a ha
      rw [hsev a ha]
      decide
    rw [hwf]
    rcases ht with rfl | ⟨er, rfl, hsev', _⟩
    · simp
    · simp [hsev']
  · intro v hv' herr
    rw [hv2] at hv' ⊢
    rcases List.mem_append.mp hv' with h | h
    · rw [hsev v h] at herr
      exact absurd herr (by decide)
    · rcases ht with rfl | ⟨er, rfl, hsev', hty⟩
      · exact absurd h (List.not_mem_nil v)
      · have hve : v = er := List.mem_singleton.mp h
        subst hve
        exact ⟨by rw [List.getLast?_concat], hty⟩
  · intro hdr rest e hp hh hex
    refine ⟨?_, by cases e <;> rfl, ?_⟩
    · show validateAndProcessStr (decodeContent bs) = _
      unfold validateAndProcessStr
      rw [hp]
      dsimp only
      rw [if_neg (by rw [hh]; simp), hex]
    · cases e
      · exact Or.inr rfl
      · exact Or.inr rfl
      · exact Or.inl rfl

/-- Witness for `validate_and_process_total_single_error` on a concrete
input whose second row carries an extra field, so the loop raises
`TypeError` while hashing it. -/
theorem validate_and_process_total_single_error_witness :
    csvParse (decodeContent (strBytes "x,y\nq,r,s\n")) =
        ([["x", "y"], ["q", "r", "s"]], false) ∧
    validate_and_process (strBytes "x,y\nq,r,s\n") =
      ((runRows 2 (dictRows ["x", "y"] [["q", "r", "s"]]) {}).rows,
       (runRows 2 (dictRows ["x", "y"] [["q", "r", "s"]]) {}).vals ++
         [excEntry (.typeErr typeErrSortMsg)]) :=
  ⟨by decide,
    ((validate_and_process_total_single_error (strBytes "x,y\nq,r,s\n")).2.2.2
      ["x", "y"] [["q", "r", "s"]] (.typeErr typeErrSortMsg)
      (by decide) (by decide) (by decide)).1⟩

/-! ### Characterisation of duplicate detection -/

theorem firstOcc_eq_none_iff :
    ∀ (seen : List (String × Nat)) (h : String),
      firstOcc seen h = none ↔ h ∉ seen.map Prod.fst := by
  intro seen h
  unfold firstOcc
  rw [Option.map_eq_none', List.find?_eq_none]
  constructor
  · intro hf hmem
    rcases List.mem_map.mp hmem with ⟨p, hp, heq⟩
    exact absurd (by simpa using heq : decide (p.1 = h) = true) (hf p hp)
  · intro hnm p hp
    intro hc
    exact hnm (List.mem_map.mpr ⟨p, hp, of_decide_eq_true hc⟩)

theorem firstOcc_some_mem :
    ∀ (seen : List (String × Nat)) (h : String) (m : Nat),
      firstOcc seen h = some m → h ∈ seen.map Prod.fst := by
  intro seen h m hf
  unfold firstOcc at hf
  rcases Option.map_eq_some'.mp hf with ⟨p, hp, _⟩
  have h1 := @List.find?_some (String × Nat) (fun q => decide (q.1 = h)) p seen hp
  have h2 := @List.mem_of_find?_eq_some (String × Nat)
    (fun q => decide (q.1 = h)) p seen hp
  exact List.mem_map.mpr ⟨p, h2, of_decide_eq_true h1⟩

theorem dupPairs_fst_ge :
    ∀ (rs : List Row) (n : Nat) (seen : List (String × Nat)) (p : Nat × Nat),
      p ∈ dupPairs n seen rs → n ≤ p.1 := by
  intro rs
  induction rs with
  | nil =>
    intro n seen p hp
    exact absurd hp (List.not_mem_nil p)
  | cons r rest ih =>
    intro n seen p hp
    rw [dupPairs] at hp
    cases hfo : firstOcc seen (rowHashStr r) with
    | some m =>
      rw [hfo] at hp
      rcases List.mem_cons.mp hp with rfl | hp'
      · exact Nat.le_refl n
      · exact Nat.le_of_succ_le (ih (n + 1) seen p hp')
    | none =>
      rw [hfo] at hp
      exact Nat.le_of_succ_le (ih (n + 1) _ p hp)

theorem dupPairs_mem_iff :
    ∀ (rs : List Row) (n : Nat) (seen : List (String × Nat)) (i : Nat)
      (hi : i < rs.length),
      (∃ m, (n + i, m) ∈ dupPairs n seen rs) ↔
        rowHashStr (rs.get ⟨i, hi⟩) ∈
          seen.map Prod.fst ++ (rs.take i).map rowHashStr := by
  intro rs
  induction rs with
  | nil =>
    intro n seen i hi
    exact absurd hi (by simp)
  | cons r rest ih =>
    intro n seen i hi
    cases i with
    | zero =>
      rw [dupPairs]
      simp only [List.take_zero, List.map_nil, List.append_nil, List.get]
      cases hfo : firstOcc seen (rowHashStr r) with
      | some m =>
        constructor
        · intro _
          exact firstOcc_some_mem seen (rowHashStr r) m hfo
        · intro _
          exact ⟨m, by rw [Nat.add_zero]; exact List.mem_cons_self _ _⟩
      | none =>
        constructor
        · rintro ⟨m, hm⟩
          have := dupPairs_fst_ge _ _ _ _ hm
          omega
        · intro hmem
          exact absurd hmem ((firstOcc_eq_none_iff seen (rowHashStr r)).mp hfo)
    | succ j =>
      have hj : j < rest.length := by simpa using hi
      rw [dupPairs]
      simp only [List.take_succ_cons, List.map_cons, List.get_cons_succ]
      have hidx : n + (j + 1) = (n + 1) + j := by omega
      rw [hidx]
      cases hfo : firstOcc seen (rowHashStr r) with
      | some m0 =>
        constructor
        · rintro ⟨m, hm⟩
          rcases List.mem_cons.mp hm with heq | hm'
          · have : (n + 1) + j = n := congrArg Prod.fst heq
            omega
          · have hh := (ih (n + 1) seen j hj).mp ⟨m, hm'⟩
            rcases List.mem_append.mp hh with h | h
            · exact List.mem_append.mpr (Or.inl h)
            · exact List.mem_append.mpr (Or.inr (List.mem_cons.mpr (Or.inr h)))
        · intro hmem
          have hm' : rowHashStr (rest.get ⟨j, hj⟩) ∈
              seen.map Prod.fst ++ (rest.take j).map rowHashStr := by
            rcases List.mem_append.mp hmem with h | h
            · exact List.mem_append.mpr (Or.inl h)
            · rcases List.mem_cons.mp h with heq | h
              · rw [heq]
                exact List.mem_append.mpr
                  (Or.inl (firstOcc_some_mem seen (rowHashStr r) m0 hfo))
              · exact List.mem_append.mpr (Or.inr h)
          rcases (ih (n + 1) seen j hj).mpr hm' with ⟨m, hm⟩
          exact ⟨m, List.mem_cons.mpr (Or.inr hm)⟩
      | none =>
        rw [ih (n + 1) (seen ++ [(rowHashStr r, n)]) j hj]
        constructor
        · intro h
          rcases List.mem_append.mp h with h | h
          · rw [List.map_append] at h
            rcases List.mem_append.mp h with h | h
            · exact List.mem_append.mpr (Or.inl h)
            · have : rowHashStr (rest.get ⟨j, hj⟩) = rowHashStr r := by
                simpa using h
              rw [this]
              exact List.mem_append.mpr (Or.inr (List.mem_cons.mpr (Or.inl rfl)))
          · exact List.mem_append.mpr (Or.inr (List.mem_cons.mpr (Or.inr h)))
        · intro h
          rcases List.mem_append.mp h with h | h
          · rw [List.map_append]
            exact List.mem_append.mpr (Or.inl (List.mem_append.mpr (Or.inl h)))
          · rcases List.mem_cons.mp h with heq | h
            · rw [List.map_append]
              exact List.mem_append.mpr (Or.inl (List.mem_append.mpr
                (Or.inr (by simpa using heq))))
            · exact List.mem_append.mpr (Or.inr h)

/-- One loop iteration in the exception-free case: the row is appended, a
duplicate warning is emitted exactly on a fingerprint hit, the fingerprint
table gains the row's hash on a miss, and the cell warnings follow. -/
theorem stepRow_ok :
    ∀ (n : Nat) (r : Row) (st : LoopSt), st.exc = none →
      (r.any fun kv => kv.1.isNone) = false →
      stepRow n r st =
        { rows := st.rows ++ [r],
          vals := (match firstOcc st.seen (rowHashStr r) with
            | some m => st.vals ++ [dupEntry n m]
            | none => st.vals) ++ (columnChecks n r).1,
          seen := (match firstOcc st.seen (rowHashStr r) with
            | some _ => st.seen
            | none => st.seen ++ [(rowHashStr r, n)]),
          exc := (columnChecks n r).2 } := by
  intro n r st hst hnone
  unfold stepRow
  rw [if_neg (by rw [hst]; simp)]
  have hh : computeRowHash r = .ok (rowHashStr r) := by
    unfold computeRowHash
    rw [if_neg (by rw [hnone]; simp)]
  rw [hh]
  dsimp only
  cases firstOcc st.seen (rowHashStr r) <;> rfl

theorem runRows_dups :
    ∀ (rs : List Row) (n : Nat) (st : LoopSt),
      (runRows n rs st).exc = none → st.exc = none →
      (runRows n rs st).vals.filter
          (fun v => v.validation_type = "duplicate_row") =
        st.vals.filter (fun v => v.validation_type = "duplicate_row") ++
          (dupPairs n st.seen rs).map (fun p => dupEntry p.1 p.2) := by
  intro rs
  induction rs with
  | nil =>
    intro n st _ _
    simp [runRows, dupPairs]
  | cons r rest ih =>
    intro n st hfin hst
    have hfin' : (runRows (n + 1) rest (stepRow n r st)).exc = none := by
      rw [runRows] at hfin
      exact hfin
    have hstep : (stepRow n r st).exc = none :=
      runRows_exc_none rest (n + 1) _ hfin'
    have hnone : (r.any fun kv => kv.1.isNone) = false := by
      cases hb : (r.any fun kv => kv.1.isNone) with
      | false => rfl
      | true =>
        have hbad : (stepRow n r st).exc = some (.typeErr typeErrSortMsg) := by
          unfold stepRow
          rw [if_neg (by rw [hst]; simp)]
          have hh : computeRowHash r = .error (.typeErr typeErrSortMsg) := by
            unfold computeRowHash
            rw [if_pos hb]
          rw [hh]
        rw [hbad] at hstep
        exact absurd hstep (by simp)
    have hrw := stepRow_ok n r st hst hnone
    rw [runRows, ih (n + 1) (stepRow n r st) hfin' hstep, hrw, dupPairs]
    have hcol : (columnChecks n r).1.filter
        (fun v => v.validation_type = "duplicate_row") = [] := by
      rw [List.filter_eq_nil_iff]
      intro a ha
      rcases columnChecks_mem n r a ha with ⟨k, rfl⟩ | ⟨s, v, rfl⟩ <;>
        simp [emptyValEntry, invalidTypeEntry]
    cases hfo : firstOcc st.seen (rowHashStr r) with
    | some m =>
      dsimp only
      rw [List.filter_append, List.filter_append, hcol]
      simp [dupEntry]
    | none =>
      dsimp only
      rw [List.filter_append, hcol]
      simp

/-- Claim C5, amended: in an exception-free run, a `duplicate_row` warning
is emitted for data row `2 + i` (the `i`-th parsed row) if and only if its
fingerprint string equals the fingerprint of some earlier row.  Since the
fingerprint join is not injective (see the counterexample), "equal
fingerprint" is strictly weaker than "value-equal row": value-equal rows
always collide and are flagged, and the first occurrence is never flagged,
but distinct rows whose serialisations coincide are flagged too. -/
theorem duplicate_iff_equal_fingerprint :
    ∀ (content : String) (hdr : List String) (rest : List (List String))
      (i : Nat) (hi : i < (dictRows hdr rest).length),
      csvParse content = (hdr :: rest, false) →
      hdr.isEmpty = false →
      (runRows 2 (dictRows hdr rest) {}).exc = none →
      ((∃ m, dupEntry (2 + i) m ∈ (validateAndProcessStr content).2) ↔
        rowHashStr ((dictRows hdr rest).get ⟨i, hi⟩) ∈
          ((dictRows hdr rest).take i).map rowHashStr) := by
  intro content hdr rest i hi hp hh hex
  have hvals : ∀ x : ValidationResult, x.validation_type = "duplicate_row" →
      (x ∈ (validateAndProcessStr content).2 ↔
        x ∈ (runRows 2 (dictRows hdr rest) {}).vals) := by
    intro x hx
    unfold validateAndProcessStr
    rw [hp]
    dsimp only
    rw [if_neg (by rw [hh]; simp), hex]
    dsimp only
    rw [if_neg (by decide : ¬(false = true))]
    by_cases hr : (runRows 2 (dictRows hdr rest) {}).rows.isEmpty = true
    · rw [if_pos hr]
      show x ∈ _ ++ [emptyFileEntry] ↔ _
      rw [List.mem_append]
      constructor
      · intro hc
        rcases hc with hc | hc
        · exact hc
        · have : x.validation_type = "empty_file" := by
            rw [List.mem_singleton.mp hc]
            rfl
          rw [hx] at this
          exact absurd this (by decide)
      · exact Or.inl
    · rw [if_neg hr]
  have hmain := runRows_dups (dictRows hdr rest) 2 {} hex rfl
  constructor
  · rintro ⟨m, hm⟩
    rw [hvals (dupEntry (2 + i) m) rfl] at hm
    have hmf : dupEntry (2 + i) m ∈
        (runRows 2 (dictRows hdr rest) {}).vals.filter
          (fun v => v.validation_type = "duplicate_row") :=
      List.mem_filter.mpr ⟨hm, by rfl⟩
    rw [hmain] at hmf
    have hmf' : dupEntry (2 + i) m ∈
        (dupPairs 2 [] (dictRows hdr rest)).map (fun p => dupEntry p.1 p.2) := by
      simpa using hmf
    rcases List.mem_map.mp hmf' with ⟨p, hpmem, hpe⟩
    have h1 : some p.1 = some (2 + i) :=
      congrArg ValidationResult.row_number hpe
    have h1' : p.1 = 2 + i := Option.some.inj h1
    have : (∃ m', (2 + i, m') ∈ dupPairs 2 [] (dictRows hdr rest)) :=
      ⟨p.2, by rw [← h1']; exact hpmem⟩
    have hiff := dupPairs_mem_iff (dictRows hdr rest) 2 [] i hi
    simpa using hiff.mp this
  · intro hmem
    have hiff := dupPairs_mem_iff (dictRows hdr rest) 2 [] i hi
    rcases hiff.mpr (by simpa using hmem) with ⟨m, hm⟩
    refine ⟨m, ?_⟩
    rw [hvals (dupEntry (2 + i) m) rfl]
    have : dupEntry (2 + i) m ∈
        (runRows 2 (dictRows hdr rest) {}).vals.filter
          (fun v => v.validation_type = "duplicate_row") := by
      rw [hmain]
      refine List.mem_append.mpr (Or.inr ?_)
      exact List.mem_map.mpr ⟨(2 + i, m), hm, rfl⟩
    exact (List.mem_filter.mp this).1

/-- Witness for `duplicate_iff_equal_fingerprint`: on
`"a,b\n1,2\n1,2\n"` the second data row (index 1, row number 3) is flagged
because its fingerprint equals row 2's. -/
theorem duplicate_iff_equal_fingerprint_witness :
    csvParse "a,b\n1,2\n1,2\n" = ([["a", "b"], ["1", "2"], ["1", "2"]], false) ∧
    (∃ m, dupEntry 3 m ∈ (validateAndProcessStr "a,b\n1,2\n1,2\n").2) :=
  ⟨by decide,
    (duplicate_iff_equal_fingerprint "a,b\n1,2\n1,2\n" ["a", "b"]
      [["1", "2"], ["1", "2"]] 1 (by decide) (by decide) (by decide)
      (by decide)).mpr (by decide)⟩

end OneCoreMx
